import Mathlib

/-!
Shallow embedding of `src/client_server/account.rs` (Conduit, a Matrix
homeserver): the account-lifecycle routes `get_register_available_route`,
`register_route`, `change_password_route`, `whoami_route` and
`deactivate_route`, together with the external collaborators they call
(identity store, room store, UIAA engine, event-append collaborator,
per-room mutex map).

Modelling conventions:
* Stores are explicit record fields of a `Db` state; routes are pure
  functions `Env → Db → Body → Except ErrorM Response × Db` (plus an
  action trace for `deactivate_route`, whose claims concern ordering).
* External library calls (`ruma`'s `UserId::parse_with_server_name`,
  `utils::random_string`) and repository collaborators whose code is not
  in `src/` (`uiaa.try_auth`, `build_and_append_pdu` failures) are
  uninterpreted functions carried by an `Env` record.
* Collaborators whose code is absent from `src/` but whose behaviour the
  spec fixes (`deactivate_account`, `make_user_admin`, `uiaa.create`) are
  modelled from the spec; each such definition says so in its doc comment.
-/

/-- Matrix user identifier as seen by this file: the result of
`UserId::parse_with_server_name`, exposing the accessors the source uses
(`localpart`, `server_name`, `is_historical`, `to_string`). -/
structure UserIdM where
  localpart : String
  server_name : String
  historical : Bool
deriving DecidableEq, Repr

/-- String form of a user id (`sender_user.to_string()`), in the Matrix
`@localpart:server` format. -/
def UserIdM.toStr (u : UserIdM) : String :=
  "@" ++ u.localpart ++ ":" ++ u.server_name

/-- `ruma::api::client::uiaa::AuthType`, restricted to the two stage types
this file constructs. -/
inductive AuthTypeM
  | Dummy
  | Password
deriving DecidableEq, Repr

/-- `ruma::api::client::uiaa::AuthFlow`. -/
structure AuthFlowM where
  stages : List AuthTypeM
deriving DecidableEq, Repr

/-- `ruma::api::client::uiaa::UiaaInfo` (params kept as an opaque string). -/
structure UiaaInfoM where
  flows : List AuthFlowM
  completed : List AuthTypeM
  params : String
  session : Option String
  auth_error : Option String
deriving DecidableEq, Repr

/-- `ruma::api::client::error::ErrorKind`, restricted to the kinds this
file produces. -/
inductive ErrorKindM
  | Forbidden
  | InvalidUsername
  | UserInUse
  | MissingParam
  | NotJson
deriving DecidableEq, Repr

/-- `conduit::Error`, restricted to the variants this file produces or
propagates. -/
inductive ErrorM
  | BadRequest (kind : ErrorKindM) (msg : String)
  | Uiaa (info : UiaaInfoM)
  | Internal (msg : String)
deriving DecidableEq, Repr

/-- `register::RegistrationKind`. -/
inductive RegistrationKind
  | Guest
  | User
deriving DecidableEq, Repr

/-- Opaque UIAA attempt payload (`IncomingAuthData`): the routes pass it
to `uiaa.try_auth` without inspecting it. -/
structure AuthDataM where
  raw : String
deriving DecidableEq, Repr

/-- One device record of the identity store: id, its access token and the
metadata. `remove_device` deletes the whole record (token invalidated,
metadata deleted). -/
structure Device where
  user : UserIdM
  device_id : String
  token : String
  display_name : Option String
deriving DecidableEq, Repr

/-- `RoomMemberEventContent` with the fields the source sets. -/
structure RoomMemberEventContentM where
  membership_leave : Bool
  displayname : Option String
  avatar_url : Option String
  is_direct : Option Bool
  third_party_invite : Option String
  blurhash : Option String
  reason : Option String
  join_authorized_via_users_server : Option String
deriving DecidableEq, Repr

/-- `PduBuilder` as filled in by `deactivate_route` (content specialised
to the member event it carries there). -/
structure PduBuilderM where
  event_type_room_member : Bool
  content : RoomMemberEventContentM
  unsigned_field : Option String
  state_key : Option String
  redacts : Option String
deriving DecidableEq, Repr

/-- Observable effects of `deactivate_route`, recorded as a trace so that
ordering claims (mutex acquired before append, deactivation after all
rooms) can be stated. -/
inductive Effect
  | createMutex (room : String)
  | lockRoom (room : String)
  | unlockRoom (room : String)
  | appendPdu (room : String) (pdu : PduBuilderM) (sender : UserIdM)
  | removeDevicesOf (u : UserIdM)
  | markDeactivated (u : UserIdM)
deriving DecidableEq, Repr

/-- The database state: the stores `account.rs` reads and mutates, the
persisted UIAA sessions, the committed PDUs, the lazily created per-room
mutex map (`globals.roomid_mutex_state`) and the room-membership store. -/
structure Db where
  users : List UserIdM
  passwords : List (UserIdM × Option String)
  displaynames : List (UserIdM × String)
  account_data : List (UserIdM × String)
  devices : List Device
  admins : List UserIdM
  deactivated : List UserIdM
  uiaa_sessions : List (UserIdM × String × UiaaInfoM × String)
  pdus : List (String × PduBuilderM × UserIdM)
  room_mutexes : List String
  rooms_joined : UserIdM → List String
  rooms_invited : UserIdM → List (String × String)

/-- Environment of uninterpreted collaborators: server configuration,
`UserId::parse_with_server_name`, `utils::random_string` (one call per
length per route invocation, so keyed by length), the UIAA engine's
`try_auth`, and the outcome of `build_and_append_pdu` per room. -/
structure Env where
  server_name : String
  allow_registration : Bool
  parse_user_id : String → String → Option UserIdM
  random_string : Nat → String
  try_auth : UserIdM → String → AuthDataM → UiaaInfoM → Db →
    Except ErrorM (Bool × UiaaInfoM)
  append_error : String → Option ErrorM

def GUEST_NAME_LENGTH : Nat := 10
def DEVICE_ID_LENGTH : Nat := 10
def SESSION_ID_LENGTH : Nat := 256
def TOKEN_LENGTH : Nat := 256

/-- `db.users.exists(&user_id)`. -/
def Db.usersExists (db : Db) (u : UserIdM) : Bool :=
  db.users.contains u

/-- `db.users.count()`. -/
def Db.usersCount (db : Db) : Nat :=
  db.users.length

/-- `db.users.create(&user_id, password)`. -/
def Db.usersCreate (db : Db) (u : UserIdM) (password : Option String) : Db :=
  { db with users := db.users ++ [u],
            passwords := (u, password) :: db.passwords }

/-- `db.users.set_password(user, password)`: replace the stored
credential. -/
def Db.setPassword (db : Db) (u : UserIdM) (password : Option String) : Db :=
  { db with passwords :=
      (u, password) :: db.passwords.filter (fun p => !(p.1 == u)) }

/-- `db.users.set_displayname(&user_id, Some(displayname))`. -/
def Db.setDisplayname (db : Db) (u : UserIdM) (name : String) : Db :=
  { db with displaynames :=
      (u, name) :: db.displaynames.filter (fun p => !(p.1 == u)) }

/-- `db.account_data.update(None, &user_id, PushRules, ...)`: seed the
default push rules; only the fact that an entry was written matters. -/
def Db.accountDataUpdate (db : Db) (u : UserIdM) (ty : String) : Db :=
  { db with account_data := (u, ty) :: db.account_data }

/-- `db.users.create_device(&user_id, &device_id, &token, display_name)`. -/
def Db.createDevice (db : Db) (u : UserIdM) (device_id token : String)
    (display_name : Option String) : Db :=
  { db with devices := db.devices ++ [⟨u, device_id, token, display_name⟩] }

/-- `db.users.all_device_ids(user)`. -/
def Db.allDeviceIds (db : Db) (u : UserIdM) : List String :=
  (db.devices.filter (fun d => d.user == u)).map (fun d => d.device_id)

/-- `db.users.remove_device(user, &id)`: invalidate the token and delete
the metadata, i.e. drop the record. -/
def Db.removeDevice (db : Db) (u : UserIdM) (id : String) : Db :=
  { db with devices :=
      db.devices.filter (fun d => !(d.user == u && d.device_id == id)) }

/-- Modelled from the spec: `db.users.deactivate_account(sender_user)`
(code lives in the user store, not in `src/`): "Remove all of the caller's
devices/credentials and mark the account permanently deactivated". -/
def Db.deactivateAccount (db : Db) (u : UserIdM) : Db :=
  { db with devices := db.devices.filter (fun d => !(d.user == u)),
            passwords := db.passwords.filter (fun p => !(p.1 == u)),
            deactivated := u :: db.deactivated }

/-- `db.users.is_deactivated(&sender_user)`. -/
def Db.isDeactivated (db : Db) (u : UserIdM) : Bool :=
  db.deactivated.contains u

/-- Modelled from the spec: `make_user_admin(&db, &user_id, displayname)`
(code lives in `database::admin`, not in `src/`): "grant it administrative
privileges automatically". -/
def Db.makeUserAdmin (db : Db) (u : UserIdM) : Db :=
  { db with admins := u :: db.admins }

/-- Modelled from the spec: `db.uiaa.create(user, device, &uiaainfo,
&json)` (UIAA engine code is not in `src/`): "allocates a session token,
stores the supplied flows, an empty completed set, and the original request
payload"; here the caller has already placed the token in `uiaainfo`. -/
def Db.uiaaCreate (db : Db) (u : UserIdM) (device : String)
    (info : UiaaInfoM) (json : String) : Db :=
  { db with uiaa_sessions := (u, device, info, json) :: db.uiaa_sessions }

/-- The placeholder identity `UserId::parse_with_server_name("",
server_name).expect("we know this is valid")` used for registration
sessions. -/
def emptyUserId (server : String) : UserIdM :=
  ⟨"", server, false⟩

/-- Response of `get_username_availability`. -/
structure AvailabilityResponse where
  available : Bool
deriving DecidableEq, Repr

/-- The validity filter closure both `get_register_available_route` and
`register_route` apply to a parsed user id (`!user_id.is_historical() &&
user_id.server_name() == db.globals.server_name()`): not historical and
on this server's own namespace; the closure is written identically in
both routes. -/
def validOnServer (env : Env) (user_id : UserIdM) : Bool :=
  !user_id.historical && user_id.server_name == env.server_name

/-- `GET /_matrix/client/r0/register/available`
(`get_register_available_route`): validate and lowercase the username,
check it is not taken; never mutates the database. -/
def get_register_available_route (env : Env) (db : Db) (username : String) :
    Except ErrorM AvailabilityResponse × Db :=
  -- Validate user id
  match (env.parse_user_id username.toLower env.server_name).filter
      (validOnServer env) with
  | none =>
      (.error (.BadRequest .InvalidUsername "Username is invalid."), db)
  | some user_id =>
      -- Check if username is creative enough
      if db.usersExists user_id then
        (.error (.BadRequest .UserInUse "Desired user ID is already taken."),
         db)
      else
        (.ok ⟨true⟩, db)

/-- Request body of `register` (fields consulted by `register_route`). -/
structure RegisterBody where
  kind : RegistrationKind
  username : Option String
  password : Option String
  device_id : Option String
  initial_device_display_name : Option String
  inhibit_login : Bool
  auth : Option AuthDataM
  json_body : Option String
  from_appservice : Bool
deriving Repr

/-- Response of `register`. -/
structure RegisterResponse where
  access_token : Option String
  user_id : UserIdM
  device_id : Option String
deriving DecidableEq, Repr

/-- The `UiaaInfo` literal built at the top of `register_route`: a single
flow with the dummy stage. -/
def dummyUiaaInfo : UiaaInfoM :=
  { flows := [⟨[AuthTypeM.Dummy]⟩], completed := [], params := "",
    session := none, auth_error := none }

/-- The `UiaaInfo` literal built at the top of `change_password_route`
and `deactivate_route`: a single flow with the password stage. -/
def passwordUiaaInfo : UiaaInfoM :=
  { flows := [⟨[AuthTypeM.Password]⟩], completed := [], params := "",
    session := none, auth_error := none }

/-- `POST /_matrix/client/r0/register` (`register_route`). -/
def register_route (env : Env) (db : Db) (body : RegisterBody) :
    Except ErrorM RegisterResponse × Db :=
  if !env.allow_registration && !body.from_appservice then
    (.error (.BadRequest .Forbidden "Registration has been disabled."), db)
  else
    let is_guest := body.kind == RegistrationKind.Guest
    -- the `unwrap_or_else` closure sets `missing_username` as a side effect
    let raw_missing : String × Bool :=
      if is_guest then (env.random_string GUEST_NAME_LENGTH, false)
      else
        match body.username with
        | some name => (name, false)
        | none => (env.random_string GUEST_NAME_LENGTH, true)
    let missing_username := raw_missing.2
    -- Validate user id
    match (env.parse_user_id raw_missing.1.toLower env.server_name).filter
        (validOnServer env) with
    | none =>
        (.error (.BadRequest .InvalidUsername "Username is invalid."), db)
    | some user_id =>
        -- Check if username is creative enough
        if db.usersExists user_id then
          (.error (.BadRequest .UserInUse "Desired user ID is already taken."),
           db)
        else
          -- UIAA
          let gate : Except ErrorM Unit × Db :=
            if !body.from_appservice then
              match body.auth with
              | some auth =>
                  match env.try_auth (emptyUserId env.server_name) "" auth
                      dummyUiaaInfo db with
                  | .error e => (.error e, db)
                  | .ok (worked, info) =>
                      if !worked then (.error (.Uiaa info), db)
                      else (.ok (), db)
              | none =>
                  match body.json_body with
                  | some json =>
                      let info := { dummyUiaaInfo with
                        session := some (env.random_string SESSION_ID_LENGTH) }
                      (.error (.Uiaa info),
                       db.uiaaCreate (emptyUserId env.server_name) "" info json)
                  | none => (.error (.BadRequest .NotJson "Not json."), db)
            else (.ok (), db)
          match gate with
          | (.error e, db1) => (.error e, db1)
          | (.ok _, db1) =>
              if missing_username then
                (.error (.BadRequest .MissingParam "Missing username field."),
                 db1)
              else
                let password := if is_guest then none else body.password
                -- Create user
                let db2 := db1.usersCreate user_id password
                -- Default to pretty displayname
                let displayname := user_id.localpart ++ " ⚡️"
                let db3 := db2.setDisplayname user_id displayname
                -- Initial account data
                let db4 := db3.accountDataUpdate user_id "m.push_rules"
                -- Inhibit login does not work for guests
                if !is_guest && body.inhibit_login then
                  (.ok ⟨none, user_id, none⟩, db4)
                else
                  let device_id :=
                    (if is_guest then none else body.device_id).getD
                      (env.random_string DEVICE_ID_LENGTH)
                  let token := env.random_string TOKEN_LENGTH
                  let db5 := db4.createDevice user_id device_id token
                    body.initial_device_display_name
                  -- If this is the first real user, grant them admin privileges
                  let db6 :=
                    if db5.usersCount == 2 then db5.makeUserAdmin user_id
                    else db5
                  (.ok ⟨some token, user_id, some device_id⟩, db6)

/-- Request body of `change_password`. -/
structure ChangePasswordBody where
  sender_user : UserIdM
  sender_device : String
  new_password : String
  logout_devices : Bool
  auth : Option AuthDataM
  json_body : Option String
deriving Repr

/-- `POST /_matrix/client/r0/account/password` (`change_password_route`). -/
def change_password_route (env : Env) (db : Db) (body : ChangePasswordBody) :
    Except ErrorM Unit × Db :=
  let sender_user := body.sender_user
  let sender_device := body.sender_device
  match body.auth with
  | some auth =>
      match env.try_auth sender_user sender_device auth passwordUiaaInfo db with
      | .error e => (.error e, db)
      | .ok (worked, info) =>
          if !worked then (.error (.Uiaa info), db)
          else
            -- Success!
            let db1 := db.setPassword sender_user (some body.new_password)
            let db2 :=
              if body.logout_devices then
                -- Logout all devices except the current one
                (((db1.allDeviceIds sender_user).filter
                    (fun id => id != sender_device)).foldl
                  (fun acc id => acc.removeDevice sender_user id) db1)
              else db1
            (.ok (), db2)
  | none =>
      match body.json_body with
      | some json =>
          let info := { passwordUiaaInfo with
            session := some (env.random_string SESSION_ID_LENGTH) }
          (.error (.Uiaa info),
           db.uiaaCreate sender_user sender_device info json)
      | none => (.error (.BadRequest .NotJson "Not json."), db)

/-- Response of `whoami`. -/
structure WhoamiResponse where
  user_id : UserIdM
  device_id : Option String
  is_guest : Bool
deriving DecidableEq, Repr

/-- `GET /_matrix/client/r0/account/whoami` (`whoami_route`): the source
fills the response's guest field from `db.users.is_deactivated`. -/
def whoami_route (db : Db) (sender_user : UserIdM)
    (sender_device : Option String) : Except ErrorM WhoamiResponse × Db :=
  (.ok ⟨sender_user, sender_device, db.isDeactivated sender_user⟩, db)

/-- Request body of `deactivate`. -/
structure DeactivateBody where
  sender_user : UserIdM
  sender_device : String
  auth : Option AuthDataM
  json_body : Option String
deriving Repr

/-- The `RoomMemberEventContent` literal built in `deactivate_route`'s
loop: membership `Leave`, every optional field `None`. -/
def leaveEventContent : RoomMemberEventContentM :=
  ⟨true, none, none, none, none, none, none, none⟩

/-- The `PduBuilder` literal built in `deactivate_route`'s loop:
`RoomMember` event type, the leave content, state key the caller's user
id string. -/
def leavePdu (sender_user : UserIdM) : PduBuilderM :=
  { event_type_room_member := true, content := leaveEventContent,
    unsigned_field := none, state_key := some sender_user.toStr,
    redacts := none }

/-- `db.rooms.rooms_joined(sender_user).chain(db.rooms.rooms_invited(
sender_user).map(|t| t.map(|(r, _)| r))).collect()`. -/
def allRoomsOf (db : Db) (sender_user : UserIdM) : List String :=
  db.rooms_joined sender_user ++
    (db.rooms_invited sender_user).map (fun t => t.1)

/-- `globals.roomid_mutex_state.write().unwrap().entry(room_id)
.or_default()` followed by `.lock().await`: the mutex is created on first
use, then acquired. -/
def acquireRoomMutex (db : Db) (room : String) : Db × List Effect :=
  if db.room_mutexes.contains room then (db, [.lockRoom room])
  else ({ db with room_mutexes := db.room_mutexes ++ [room] },
        [.createMutex room, .lockRoom room])

/-- Modelled from the spec: `db.rooms.build_and_append_pdu(...)` (the
event-append collaborator lives in the rooms module, not in `src/`):
"builds, authorizes, and commits the event; fails with a propagated error
on authorization or storage failure". Success commits the PDU to the
room's log; the possible failure is the environment's `append_error`. -/
def buildAndAppendPdu (env : Env) (db : Db) (pdu : PduBuilderM)
    (sender : UserIdM) (room : String) : Except ErrorM Db :=
  match env.append_error room with
  | some e => .error e
  | none => .ok { db with pdus := db.pdus ++ [(room, pdu, sender)] }

/-- The `for room_id in all_rooms` loop of `deactivate_route`: per room,
acquire the mutex (creating it on first use), build and append the leave
PDU under the lock, release the lock (the guard drops at the end of the
iteration, also on the error path), and propagate the first append
error. -/
def leaveLoop (env : Env) (sender_user : UserIdM) :
    List String → Db → Except ErrorM Unit × Db × List Effect
  | [], db => (.ok (), db, [])
  | room :: rest, db =>
      let step := acquireRoomMutex db room
      match buildAndAppendPdu env step.1 (leavePdu sender_user) sender_user
          room with
      | .error e => (.error e, step.1, step.2 ++ [.unlockRoom room])
      | .ok db2 =>
          let next := leaveLoop env sender_user rest db2
          (next.1, next.2.1,
           step.2 ++
             [.appendPdu room (leavePdu sender_user) sender_user,
              .unlockRoom room] ++ next.2.2)

/-- `POST /_matrix/client/r0/account/deactivate` (`deactivate_route`);
also returns the trace of room-mutation and deactivation effects. -/
def deactivate_route (env : Env) (db : Db) (body : DeactivateBody) :
    Except ErrorM Unit × Db × List Effect :=
  let sender_user := body.sender_user
  let sender_device := body.sender_device
  match body.auth with
  | some auth =>
      match env.try_auth sender_user sender_device auth passwordUiaaInfo db with
      | .error e => (.error e, db, [])
      | .ok (worked, info) =>
          if !worked then (.error (.Uiaa info), db, [])
          else
            -- Success! Leave all joined rooms and reject all invitations
            let all_rooms := allRoomsOf db sender_user
            match leaveLoop env sender_user all_rooms db with
            | (.error e, db1, tr) => (.error e, db1, tr)
            | (.ok _, db1, tr) =>
                -- Remove devices and mark account as deactivated
                (.ok (), db1.deactivateAccount sender_user,
                 tr ++ [.removeDevicesOf sender_user,
                        .markDeactivated sender_user])
  | none =>
      match body.json_body with
      | some json =>
          let info := { passwordUiaaInfo with
            session := some (env.random_string SESSION_ID_LENGTH) }
          (.error (.Uiaa info),
           db.uiaaCreate sender_user sender_device info json, [])
      | none => (.error (.BadRequest .NotJson "Not json."), db, [])

/-! Concrete fixtures used by witness and counterexample theorems. -/

def srvName : String := "conduit.rs"

/-- Witness parser: every string parses to the fixed non-historical
localpart `alice` on the requested server (constant so that witnesses
evaluate without running `String.toLower`). -/
def parseAny : String → String → Option UserIdM :=
  fun _ server => some ⟨"alice", server, false⟩

/-- Witness UIAA engine: every attempt satisfies authentication. -/
def tryAuthYes : UserIdM → String → AuthDataM → UiaaInfoM → Db →
    Except ErrorM (Bool × UiaaInfoM) :=
  fun _ _ _ info _ => .ok (true, info)

def baseEnv : Env :=
  { server_name := srvName, allow_registration := true,
    parse_user_id := parseAny,
    random_string := fun n => "rnd" ++ toString n,
    try_auth := tryAuthYes,
    append_error := fun _ => none }

def aliceU : UserIdM := ⟨"alice", srvName, false⟩

def conduitU : UserIdM := ⟨"conduit", srvName, false⟩

def emptyDb : Db :=
  { users := [], passwords := [], displaynames := [], account_data := [],
    devices := [], admins := [], deactivated := [], uiaa_sessions := [],
    pdus := [], room_mutexes := [],
    rooms_joined := fun _ => [], rooms_invited := fun _ => [] }

/-- State in which `alice` was created as a normal (non-guest) account
with a stored credential and has since been deactivated. -/
def deactDb : Db :=
  { emptyDb with users := [aliceU], passwords := [(aliceU, some "pw")],
                 deactivated := [aliceU] }


/-- C6: `check_availability` lowercases the supplied identifier and
returns `available = true` exactly when the lowercased identifier parses
as a user id on this server's own namespace, is not historical, and no
user record exists for it; it fails `InvalidUsername` when parsing or
validation fails and `UserInUse` when a record already exists; every
success carries `available = true`; and the database is never mutated. -/
theorem check_availability_spec (env : Env) (db : Db) (username : String) :
    ((get_register_available_route env db username).1 = .ok ⟨true⟩ ↔
      ∃ uid, env.parse_user_id username.toLower env.server_name = some uid ∧
        uid.historical = false ∧ uid.server_name = env.server_name ∧
        db.usersExists uid = false) ∧
    ((env.parse_user_id username.toLower env.server_name).filter
        (validOnServer env) = none →
      (get_register_available_route env db username).1 =
        .error (.BadRequest .InvalidUsername "Username is invalid.")) ∧
    (∀ uid,
      (env.parse_user_id username.toLower env.server_name).filter
        (validOnServer env) = some uid →
      db.usersExists uid = true →
      (get_register_available_route env db username).1 =
        .error (.BadRequest .UserInUse "Desired user ID is already taken.")) ∧
    (∀ r db2, get_register_available_route env db username = (.ok r, db2) →
      r.available = true) ∧
    (get_register_available_route env db username).2 = db := by
  refine ⟨?_, ?_, ?_, ?_, ?_⟩
  · unfold get_register_available_route
    cases hf : (env.parse_user_id username.toLower env.server_name).filter
        (validOnServer env) with
    | none =>
        rw [Option.filter_eq_none] at hf
        constructor
        · intro h; exact absurd h (by simp)
        · rintro ⟨uid, hp, hh, hs, he⟩
          rcases hf with hf | hf
          · rw [hf] at hp; cases hp
          · have hv := hf uid (by rw [hp]; rfl)
            simp [validOnServer, hh, hs] at hv
    | some u =>
        rw [Option.filter_eq_some] at hf
        obtain ⟨hmem, hval⟩ := hf
        have hmem' : env.parse_user_id username.toLower env.server_name =
            some u := hmem
        by_cases hex : db.usersExists u
        · simp only [hex, if_true]
          constructor
          · intro h; exact absurd h (by simp)
          · rintro ⟨uid, hp, hh, hs, he⟩
            rw [hmem'] at hp
            cases hp
            rw [hex] at he
            cases he
        · simp only [hex, if_false, Bool.false_eq_true]
          constructor
          · intro _
            refine ⟨u, hmem', ?_, ?_, ?_⟩
            · have := hval
              simp [validOnServer, Bool.and_eq_true] at this
              exact this.1
            · have := hval
              simp [validOnServer, Bool.and_eq_true] at this
              exact this.2
            · simp [hex]
          · intro _; trivial
  · intro h
    unfold get_register_available_route
    rw [h]
  · intro uid h hex
    unfold get_register_available_route
    rw [h]
    simp [hex]
  · intro r db2 h
    unfold get_register_available_route at h
    cases hf : (env.parse_user_id username.toLower env.server_name).filter
        (validOnServer env) with
    | none => rw [hf] at h; cases h
    | some u =>
        rw [hf] at h
        by_cases hex : db.usersExists u
        · simp [hex] at h
        · simp [hex] at h
          obtain ⟨h1, -⟩ := h
          subst h1
          rfl
  · unfold get_register_available_route
    cases (env.parse_user_id username.toLower env.server_name).filter
        (validOnServer env) with
    | none => rfl
    | some u => by_cases hex : db.usersExists u <;> simp [hex]

/-- Witness for C6: a fresh, valid name is reported available. -/
theorem check_availability_spec_witness :
    (get_register_available_route baseEnv emptyDb "Alice").1 = .ok ⟨true⟩ :=
  (check_availability_spec baseEnv emptyDb "Alice").1.mpr
    ⟨aliceU, rfl, rfl, rfl, rfl⟩

/-- C5 (code bug): `whoami` fills the response's guest field from the
account's deactivation flag (`db.users.is_deactivated`). At this state,
`alice` — created as a normal, non-guest account with a stored
credential — is deactivated, and `whoami` reports `is_guest = true`
while still returning the caller's user id and device id; the database
is unchanged. -/
theorem whoami_reports_deactivation_flag :
    (whoami_route deactDb aliceU (some "DEV")).1 =
      .ok ⟨aliceU, some "DEV", true⟩ ∧
    (whoami_route deactDb aliceU (some "DEV")).2 = deactDb :=
  ⟨rfl, rfl⟩

/-- Inversion of a successful `register_route` call: the account was
created, and the response and admin-grant shape depend only on whether
the non-guest `inhibit_login` early return was taken. -/
theorem register_ok_cases (env : Env) (db : Db) (body : RegisterBody)
    (resp : RegisterResponse) (db2 : Db)
    (h : register_route env db body = (.ok resp, db2)) :
    db2.users = db.users ++ [resp.user_id] ∧
    ((!(body.kind == RegistrationKind.Guest) && body.inhibit_login) = true →
      resp.access_token = none ∧ resp.device_id = none ∧
      db2.admins = db.admins) ∧
    ((!(body.kind == RegistrationKind.Guest) && body.inhibit_login) = false →
      resp.access_token = some (env.random_string TOKEN_LENGTH) ∧
      (∃ d, resp.device_id = some d) ∧
      (db2.usersCount = 2 → db2.admins = resp.user_id :: db.admins) ∧
      (db2.usersCount ≠ 2 → db2.admins = db.admins)) := by
  unfold register_route at h
  split at h
  · cases h
  · dsimp only at h
    split at h
    · cases h
    · rename_i user_id heqf
      split at h
      · cases h
      · split at h
        · cases h
        · rename_i aunit db1 heqgate
          have hdb1 : db1 = db := by
            split at heqgate
            · split at heqgate
              · split at heqgate
                · cases heqgate
                · split at heqgate
                  · cases heqgate
                  · cases heqgate; rfl
              · split at heqgate
                · cases heqgate
                · cases heqgate
            · cases heqgate; rfl
          subst hdb1
          clear heqgate heqf
          by_cases hg : (body.kind == RegistrationKind.Guest) = true
          · simp only [hg, if_true, Bool.not_true, Bool.false_and,
              Bool.false_eq_true, if_false] at h ⊢
            split at h <;> cases h
            · rename_i hcount
              refine ⟨rfl, ?_, ?_⟩ <;> intro hcond
              · cases hcond
              · refine ⟨rfl, ⟨_, rfl⟩, fun _ => rfl, fun hne => ?_⟩
                exact absurd (by simpa using hcount) hne
            · rename_i hcount
              refine ⟨rfl, ?_, ?_⟩ <;> intro hcond
              · cases hcond
              · refine ⟨rfl, ⟨_, rfl⟩, fun hc2 => ?_, fun _ => rfl⟩
                exact absurd (by simpa using hc2) hcount
          · have hgf : (body.kind == RegistrationKind.Guest) = false :=
              Bool.of_not_eq_true hg
            simp only [hgf, Bool.false_eq_true, if_false, Bool.not_false,
              Bool.true_and] at h ⊢
            cases hus : body.username with
            | none =>
                rw [hus] at h
                dsimp only at h
                simp only [if_true] at h
                cases h
            | some nm =>
                rw [hus] at h
                dsimp only at h
                simp only [Bool.false_eq_true, if_false] at h
                by_cases hi : body.inhibit_login = true
                · simp only [hi, if_true] at h ⊢
                  cases h
                  refine ⟨rfl, fun _ => ⟨rfl, rfl, rfl⟩, fun hc => ?_⟩
                  cases hc
                · have hif : body.inhibit_login = false :=
                    Bool.of_not_eq_true hi
                  simp only [hif, Bool.false_eq_true, if_false] at h ⊢
                  split at h <;> cases h
                  · rename_i hcount
                    refine ⟨rfl, fun hc => ?_, ?_⟩
                    · cases hc
                    · intro hcond
                      refine ⟨rfl, ⟨_, rfl⟩, fun _ => rfl, fun hne => ?_⟩
                      exact absurd (by simpa using hcount) hne
                  · rename_i hcount
                    refine ⟨rfl, fun hc => ?_, ?_⟩
                    · cases hc
                    · intro hcond
                      refine ⟨rfl, ⟨_, rfl⟩, fun hc2 => ?_, fun _ => rfl⟩
                      exact absurd (by simpa using hc2) hcount

/-- One existing account: the reserved server user, generated first. -/
def oneUserDb : Db := { emptyDb with users := [conduitU] }

/-- A normal registration request for `alice`, `inhibit_login` not set. -/
def normalBody : RegisterBody :=
  { kind := RegistrationKind.User, username := some "alice",
    password := some "pw", device_id := none,
    initial_device_display_name := none, inhibit_login := false,
    auth := some ⟨"ack"⟩, json_body := some "j", from_appservice := false }

/-- The same request with `inhibit_login` set. -/
def inhibitBody : RegisterBody := { normalBody with inhibit_login := true }

/-- A guest registration request with `inhibit_login` set. -/
def guestInhibitBody : RegisterBody :=
  { normalBody with
    kind := RegistrationKind.Guest
    username := none
    inhibit_login := true }

/-- C2 (counterexample): a second account registered with
`inhibit_login = true` — the account count immediately after creation is
two, yet `register` grants no administrative privileges, because the
non-guest `inhibit_login` early return precedes the admin-grant check. -/
theorem register_admin_count_two_cex :
    (register_route baseEnv oneUserDb inhibitBody).1 =
      .ok ⟨none, aliceU, none⟩ ∧
    (register_route baseEnv oneUserDb inhibitBody).2.usersCount = 2 ∧
    (register_route baseEnv oneUserDb inhibitBody).2.admins = [] :=
  ⟨rfl, rfl, rfl⟩

/-- C2 (amended): for every successful `register` call, administrative
privileges are granted to the new account if and only if the total
number of accounts immediately after its creation equals two and the
call did not take the non-guest `inhibit_login` early return (which
returns before the admin-grant check). -/
theorem register_admin_grant_amended (env : Env) (db : Db)
    (body : RegisterBody) (resp : RegisterResponse) (db2 : Db)
    (h : register_route env db body = (.ok resp, db2)) :
    db2.admins = resp.user_id :: db.admins ↔
      (db2.usersCount = 2 ∧
        ¬((body.kind == RegistrationKind.Guest) = false ∧
          body.inhibit_login = true)) := by
  obtain ⟨-, hskip, hdev⟩ := register_ok_cases env db body resp db2 h
  by_cases hb : (!(body.kind == RegistrationKind.Guest) &&
      body.inhibit_login) = true
  · obtain ⟨-, -, hadm⟩ := hskip hb
    rw [Bool.and_eq_true, Bool.not_eq_true'] at hb
    constructor
    · intro hcons
      rw [hadm] at hcons
      exact absurd hcons.symm (List.cons_ne_self _ _)
    · rintro ⟨-, hno⟩
      exact absurd hb hno
  · have hb' := Bool.of_not_eq_true hb
    obtain ⟨-, -, hyes, hno⟩ := hdev hb'
    constructor
    · intro hcons
      constructor
      · by_contra hne
        rw [hno hne] at hcons
        exact absurd hcons.symm (List.cons_ne_self _ _)
      · rintro ⟨hgf, hit⟩
        rw [hgf, hit] at hb'
        cases hb'
    · rintro ⟨hc, -⟩
      exact hyes hc

/-- Witness for the amended C2: the second account (after the reserved
server user), registered without `inhibit_login`, is granted admin. -/
theorem register_admin_grant_amended_witness :
    (register_route baseEnv oneUserDb normalBody).2.admins =
      aliceU :: oneUserDb.admins :=
  (register_admin_grant_amended baseEnv oneUserDb normalBody
      ⟨some (baseEnv.random_string TOKEN_LENGTH), aliceU,
        some (baseEnv.random_string DEVICE_ID_LENGTH)⟩
      (register_route baseEnv oneUserDb normalBody).2 rfl).mpr
    ⟨rfl, by decide⟩

/-- C4 (counterexample): a guest registration with `inhibit_login =
true` still receives an access token and a device id — the omission
applies only to non-guest accounts ("Inhibit login does not work for
guests"). -/
theorem register_guest_inhibit_cex :
    guestInhibitBody.inhibit_login = true ∧
    (register_route baseEnv emptyDb guestInhibitBody).1 =
      .ok ⟨some (baseEnv.random_string TOKEN_LENGTH), aliceU,
        some (baseEnv.random_string DEVICE_ID_LENGTH)⟩ :=
  ⟨by decide, rfl⟩

/-- C4 (amended): a successful `register` omits both the access token
and the device id exactly when the account is a non-guest and
`inhibit_login` was set; in every other case (including guests with
`inhibit_login` set) both are present. -/
theorem register_token_omission_amended (env : Env) (db : Db)
    (body : RegisterBody) (resp : RegisterResponse) (db2 : Db)
    (h : register_route env db body = (.ok resp, db2)) :
    (((body.kind == RegistrationKind.Guest) = false ∧
        body.inhibit_login = true) →
      resp.access_token = none ∧ resp.device_id = none) ∧
    (¬((body.kind == RegistrationKind.Guest) = false ∧
        body.inhibit_login = true) →
      (∃ t, resp.access_token = some t) ∧ ∃ d, resp.device_id = some d) := by
  obtain ⟨-, hskip, hdev⟩ := register_ok_cases env db body resp db2 h
  constructor
  · rintro ⟨hgf, hit⟩
    obtain ⟨h1, h2, -⟩ := hskip (by rw [hgf, hit]; rfl)
    exact ⟨h1, h2⟩
  · intro hnot
    have hb : (!(body.kind == RegistrationKind.Guest) &&
        body.inhibit_login) = false := by
      cases hgv : (body.kind == RegistrationKind.Guest) <;>
        cases hiv : body.inhibit_login <;> simp_all
    obtain ⟨h1, h2, -, -⟩ := hdev hb
    exact ⟨⟨_, h1⟩, h2⟩

/-- Witness for the amended C4: a non-guest registration with
`inhibit_login` set omits both the token and the device id. -/
theorem register_token_omission_amended_witness :
    (register_route baseEnv oneUserDb inhibitBody).1 =
      .ok ⟨none, aliceU, none⟩ ∧
    (⟨none, aliceU, none⟩ : RegisterResponse).access_token = none ∧
    (⟨none, aliceU, none⟩ : RegisterResponse).device_id = none :=
  ⟨rfl,
   (register_token_omission_amended baseEnv oneUserDb inhibitBody
      ⟨none, aliceU, none⟩ (register_route baseEnv oneUserDb inhibitBody).2
      rfl).1 ⟨rfl, rfl⟩⟩

/-- C7: for non-guest registration with a supplied username, the
identifier is normalized and validated exactly as in
`check_availability`, and the validation and in-use check happen before
any UIAA processing: whatever the request's `auth`/`json_body` fields,
an invalid name fails `InvalidUsername` and a taken name fails
`UserInUse`, with the database unchanged (no UIAA session created), in
exact agreement with `get_register_available_route` on the same name. -/
theorem register_validation_matches_availability (env : Env) (db : Db)
    (body : RegisterBody) (name : String)
    (hkind : body.kind = RegistrationKind.User)
    (hname : body.username = some name)
    (hallow : (!env.allow_registration && !body.from_appservice) = false) :
    ((env.parse_user_id name.toLower env.server_name).filter
        (validOnServer env) = none →
      register_route env db body =
        (.error (.BadRequest .InvalidUsername "Username is invalid."), db) ∧
      get_register_available_route env db name =
        (.error (.BadRequest .InvalidUsername "Username is invalid."), db)) ∧
    (∀ uid,
      (env.parse_user_id name.toLower env.server_name).filter
        (validOnServer env) = some uid →
      db.usersExists uid = true →
      register_route env db body =
        (.error (.BadRequest .UserInUse "Desired user ID is already taken."),
         db) ∧
      get_register_available_route env db name =
        (.error (.BadRequest .UserInUse "Desired user ID is already taken."),
         db)) := by
  constructor
  · intro hf
    constructor
    · unfold register_route
      rw [hallow]
      simp only [Bool.false_eq_true, if_false]
      simp only [hkind, hname]
      simp only [show (RegistrationKind.User == RegistrationKind.Guest) =
        false from rfl, Bool.false_eq_true, if_false]
      rw [hf]
    · unfold get_register_available_route
      rw [hf]
  · intro uid hf hex
    constructor
    · unfold register_route
      rw [hallow]
      simp only [Bool.false_eq_true, if_false]
      simp only [hkind, hname]
      simp only [show (RegistrationKind.User == RegistrationKind.Guest) =
        false from rfl, Bool.false_eq_true, if_false]
      rw [hf]
      simp only [hex, if_true]
    · unfold get_register_available_route
      rw [hf]
      simp only [hex, if_true]

/-- Witness for C7: registering a name that is already taken fails
`UserInUse` even though the attached UIAA attempt would succeed. -/
theorem register_validation_matches_availability_witness :
    register_route baseEnv deactDb normalBody =
      (.error (.BadRequest .UserInUse "Desired user ID is already taken."),
       deactDb) :=
  ((register_validation_matches_availability baseEnv deactDb normalBody
      "alice" rfl rfl rfl).2 aliceU rfl rfl).1

/-- C8: a non-guest `register` call without a username whose UIAA
authentication is satisfied fails `MissingParam`, and the database is
returned unchanged: no account record is created, so the throwaway
random identifier is never committed. -/
theorem register_missing_username_fails (env : Env) (db : Db)
    (body : RegisterBody) (a : AuthDataM) (info : UiaaInfoM) (uid : UserIdM)
    (hkind : body.kind = RegistrationKind.User)
    (husername : body.username = none)
    (happ : body.from_appservice = false)
    (hreg : env.allow_registration = true)
    (hparse : (env.parse_user_id
        (env.random_string GUEST_NAME_LENGTH).toLower env.server_name).filter
        (validOnServer env) = some uid)
    (hex : db.usersExists uid = false)
    (hauth : body.auth = some a)
    (htry : env.try_auth (emptyUserId env.server_name) "" a dummyUiaaInfo db =
      .ok (true, info)) :
    register_route env db body =
      (.error (.BadRequest .MissingParam "Missing username field."), db) := by
  unfold register_route
  rw [hreg, happ]
  simp only [Bool.not_true, Bool.false_and, Bool.false_eq_true, if_false]
  simp only [hkind, husername]
  simp only [show (RegistrationKind.User == RegistrationKind.Guest) =
    false from rfl, Bool.false_eq_true, if_false]
  rw [hparse]
  simp only [hex, Bool.false_eq_true, if_false]
  simp [hauth, htry]

/-- Witness for C8: a concrete username-less registration with satisfied
UIAA fails `MissingParam` and leaves the database untouched. -/
theorem register_missing_username_fails_witness :
    register_route baseEnv emptyDb
        { normalBody with username := none } =
      (.error (.BadRequest .MissingParam "Missing username field."),
       emptyDb) :=
  register_missing_username_fails baseEnv emptyDb
    { normalBody with username := none } ⟨"ack"⟩ dummyUiaaInfo aliceU
    rfl rfl rfl rfl rfl rfl rfl rfl

/-- Lookup of a user's stored credential in the password store. -/
def Db.passwordOf (db : Db) (u : UserIdM) : Option (Option String) :=
  (db.passwords.find? (fun p => p.1 == u)).map (fun p => p.2)

/-- The `logout_devices` loop only filters the device store. -/
theorem foldl_removeDevice_devices (u : UserIdM) (ids : List String) :
    ∀ db : Db,
    (ids.foldl (fun acc id => acc.removeDevice u id) db).devices =
      db.devices.filter
        (fun d => !(d.user == u && ids.contains d.device_id)) := by
  induction ids with
  | nil =>
      intro db
      simp
  | cons i rest ih =>
      intro db
      rw [List.foldl_cons, ih]
      show (db.removeDevice u i).devices.filter _ = _
      unfold Db.removeDevice
      dsimp only
      rw [List.filter_filter]
      apply List.filter_congr
      intro d _
      cases h1 : d.user == u <;> cases h2 : d.device_id == i <;>
        simp_all [List.contains_cons]
  -- fallthrough

/-- The `logout_devices` loop leaves every non-device store unchanged. -/
theorem foldl_removeDevice_passwords (u : UserIdM) (ids : List String) :
    ∀ db : Db,
    (ids.foldl (fun acc id => acc.removeDevice u id) db).passwords =
      db.passwords := by
  induction ids with
  | nil => intro db; rfl
  | cons i rest ih => intro db; rw [List.foldl_cons, ih]; rfl

/-- C3: a `change_password` call whose UIAA password stage is satisfied
updates the caller's stored credential to the new password; with
`logout_devices = true` every device of the caller except the calling
device is removed (its whole record — token and metadata — dropped)
while the calling device's record is kept unchanged; with
`logout_devices = false` no device is removed. -/
theorem change_password_spec (env : Env) (db : Db)
    (body : ChangePasswordBody) (a : AuthDataM) (info : UiaaInfoM)
    (hauth : body.auth = some a)
    (htry : env.try_auth body.sender_user body.sender_device a
        passwordUiaaInfo db = .ok (true, info)) :
    (change_password_route env db body).1 = .ok () ∧
    (change_password_route env db body).2.passwordOf body.sender_user =
      some (some body.new_password) ∧
    (body.logout_devices = true →
      (change_password_route env db body).2.devices =
        db.devices.filter
          (fun d => !(d.user == body.sender_user) ||
            d.device_id == body.sender_device)) ∧
    (body.logout_devices = false →
      (change_password_route env db body).2.devices = db.devices) := by
  unfold change_password_route
  rw [hauth]
  dsimp only
  rw [htry]
  dsimp only
  simp only [Bool.not_true, Bool.false_eq_true, if_false]
  refine ⟨by trivial, ?_, ?_, ?_⟩
  · by_cases hl : body.logout_devices = true
    · simp only [hl, if_true]
      rw [Db.passwordOf, foldl_removeDevice_passwords]
      show ((db.setPassword body.sender_user
          (some body.new_password)).passwords.find? _).map _ = _
      unfold Db.setPassword
      dsimp only
      rw [List.find?_cons_of_pos _ (by simp)]
      rfl
    · have hl' : body.logout_devices = false := Bool.of_not_eq_true hl
      simp only [hl', Bool.false_eq_true, if_false]
      rw [Db.passwordOf]
      unfold Db.setPassword
      dsimp only
      rw [List.find?_cons_of_pos _ (by simp)]
      rfl
  · intro hl
    simp only [hl, if_true]
    rw [foldl_removeDevice_devices]
    show (db.setPassword body.sender_user
        (some body.new_password)).devices.filter _ =
      db.devices.filter _
    apply List.filter_congr
    intro d hd
    cases h1 : d.user == body.sender_user with
    | false => simp
    | true =>
        simp only [Bool.true_and, Bool.not_true, Bool.false_or]
        cases h2 : d.device_id == body.sender_device with
        | true =>
            have hdev : ((((db.setPassword body.sender_user
                (some body.new_password)).allDeviceIds
                  body.sender_user).filter
                (fun id => id != body.sender_device)).contains
                  d.device_id) = false := by
              have he : d.device_id = body.sender_device := by
                simpa using h2
              simp [List.contains, he]
            rw [hdev]
            simp [h2]
        | false =>
            have hdev : ((((db.setPassword body.sender_user
                (some body.new_password)).allDeviceIds
                  body.sender_user).filter
                (fun id => id != body.sender_device)).contains
                  d.device_id) = true := by
              simp [List.contains, Db.allDeviceIds, Db.setPassword,
                List.mem_filter, List.mem_map]
              refine ⟨⟨d, ⟨hd, by simpa using h1⟩, rfl⟩, by simpa using h2⟩
            rw [hdev]
            simp [h2]
  · intro hl
    simp only [hl, Bool.false_eq_true, if_false]
    rfl

/-- Three devices of `alice`, `D1` being the calling device. -/
def threeDevDb : Db :=
  { emptyDb with users := [aliceU],
                 passwords := [(aliceU, some "old")],
                 devices := [⟨aliceU, "D1", "t1", none⟩,
                             ⟨aliceU, "D2", "t2", none⟩,
                             ⟨aliceU, "D3", "t3", none⟩] }

/-- A `change_password` request from device `D1` with cascading logout. -/
def cpBody : ChangePasswordBody :=
  { sender_user := aliceU, sender_device := "D1", new_password := "new",
    logout_devices := true, auth := some ⟨"pw"⟩, json_body := some "j" }

/-- Witness for C3: starting from devices D1 (caller), D2, D3, the call
keeps exactly D1 with its token and updates the stored credential. -/
theorem change_password_spec_witness :
    (change_password_route baseEnv threeDevDb cpBody).2.passwordOf aliceU =
      some (some "new") ∧
    (change_password_route baseEnv threeDevDb cpBody).2.devices =
      [⟨aliceU, "D1", "t1", none⟩] := by
  have h := change_password_spec baseEnv threeDevDb cpBody ⟨"pw"⟩
    passwordUiaaInfo rfl rfl
  refine ⟨h.2.1, ?_⟩
  rw [h.2.2.1 rfl]
  rfl

/-- Relational specification of the cascading-leave trace: rooms are
processed strictly one at a time; for each room the caller's leave PDU
is appended strictly between acquiring that room's lock and releasing
it before the next room, and the mutex is created first exactly when
the room has none yet (`ms` tracks the mutex map across the rooms). -/
inductive SerializedLeaves (u : UserIdM) :
    List String → List String → List Effect → Prop
  | nil (ms : List String) : SerializedLeaves u ms [] []
  | known (ms : List String) (r : String) (rest : List String)
      (tr : List Effect) :
      ms.contains r = true →
      SerializedLeaves u ms rest tr →
      SerializedLeaves u ms (r :: rest)
        (.lockRoom r :: .appendPdu r (leavePdu u) u :: .unlockRoom r :: tr)
  | fresh (ms : List String) (r : String) (rest : List String)
      (tr : List Effect) :
      ms.contains r = false →
      SerializedLeaves u (ms ++ [r]) rest tr →
      SerializedLeaves u ms (r :: rest)
        (.createMutex r :: .lockRoom r :: .appendPdu r (leavePdu u) u ::
          .unlockRoom r :: tr)

/-- When every append succeeds, the leave loop succeeds, commits exactly
one leave PDU per room in order, and its trace satisfies the per-room
serialization discipline. -/
theorem leaveLoop_success (env : Env) (u : UserIdM) (rooms : List String) :
    ∀ db : Db, (∀ r ∈ rooms, env.append_error r = none) →
    (leaveLoop env u rooms db).1 = .ok () ∧
    (leaveLoop env u rooms db).2.1.pdus =
      db.pdus ++ rooms.map (fun r => (r, leavePdu u, u)) ∧
    SerializedLeaves u db.room_mutexes rooms
      (leaveLoop env u rooms db).2.2 := by
  induction rooms with
  | nil =>
      intro db _
      exact ⟨rfl, by simp [leaveLoop], .nil _⟩
  | cons r rest ih =>
      intro db h
      have hr : env.append_error r = none := h r (by simp)
      obtain ⟨h1, h2, h3⟩ := ih
        { db with pdus := db.pdus ++ [(r, leavePdu u, u)] }
        (fun x hx => h x (by simp [hx]))
      obtain ⟨g1, g2, g3⟩ := ih
        { db with room_mutexes := db.room_mutexes ++ [r],
                  pdus := db.pdus ++ [(r, leavePdu u, u)] }
        (fun x hx => h x (by simp [hx]))
      unfold leaveLoop acquireRoomMutex buildAndAppendPdu
      rw [hr]
      by_cases hm : db.room_mutexes.contains r = true
      · simp only [hm, if_true]
        try dsimp only
        refine ⟨h1, ?_, ?_⟩
        · rw [h2]
          simp
        · exact SerializedLeaves.known _ _ _ _ hm h3
      · simp only [hm, Bool.false_eq_true, if_false]
        try dsimp only
        refine ⟨g1, ?_, ?_⟩
        · rw [g2]
          simp
        · exact SerializedLeaves.fresh _ _ _ _
            (Bool.of_not_eq_true hm) g3

/-- The leave loop only ever touches the PDU log and the mutex map: the
identity stores are untouched whatever happens. -/
theorem leaveLoop_preserves (env : Env) (u : UserIdM) (rooms : List String) :
    ∀ db : Db,
    (leaveLoop env u rooms db).2.1.devices = db.devices ∧
    (leaveLoop env u rooms db).2.1.deactivated = db.deactivated ∧
    (leaveLoop env u rooms db).2.1.users = db.users ∧
    (leaveLoop env u rooms db).2.1.passwords = db.passwords := by
  induction rooms with
  | nil => intro db; exact ⟨rfl, rfl, rfl, rfl⟩
  | cons r rest ih =>
      intro db
      unfold leaveLoop acquireRoomMutex buildAndAppendPdu
      cases he : env.append_error r <;>
        by_cases hm : db.room_mutexes.contains r = true <;>
          simp only [hm, if_true, Bool.false_eq_true, if_false] <;>
            try dsimp only
      all_goals first
        | exact ⟨trivial, trivial, trivial, trivial⟩
        | exact ih _

/-- If the append for room `r` fails with `e` after the rooms in `as`
all succeeded, the loop surfaces `e` and the PDU log holds exactly the
leaves for `as`: earlier leaves are kept, later rooms are not tried. -/
theorem leaveLoop_failure (env : Env) (u : UserIdM) (as : List String)
    (r : String) (bs : List String) (e : ErrorM) :
    ∀ db : Db, (∀ x ∈ as, env.append_error x = none) →
    env.append_error r = some e →
    (leaveLoop env u (as ++ r :: bs) db).1 = .error e ∧
    (leaveLoop env u (as ++ r :: bs) db).2.1.pdus =
      db.pdus ++ as.map (fun x => (x, leavePdu u, u)) := by
  induction as with
  | nil =>
      intro db _ hr
      simp only [List.nil_append, List.map_nil, List.append_nil]
      unfold leaveLoop acquireRoomMutex buildAndAppendPdu
      rw [hr]
      by_cases hm : db.room_mutexes.contains r = true <;>
        simp only [hm, if_true, Bool.false_eq_true, if_false] <;>
          exact ⟨by trivial, by trivial⟩
  | cons a rest ih =>
      intro db h hr
      have ha : env.append_error a = none := h a (by simp)
      obtain ⟨h1, h2⟩ := ih
        { db with pdus := db.pdus ++ [(a, leavePdu u, u)] }
        (fun x hx => h x (by simp [hx])) hr
      obtain ⟨g1, g2⟩ := ih
        { db with room_mutexes := db.room_mutexes ++ [a],
                  pdus := db.pdus ++ [(a, leavePdu u, u)] }
        (fun x hx => h x (by simp [hx])) hr
      rw [List.cons_append]
      unfold leaveLoop acquireRoomMutex buildAndAppendPdu
      rw [ha]
      by_cases hm : db.room_mutexes.contains a = true
      · simp only [hm, if_true]
        try dsimp only
        refine ⟨h1, ?_⟩
        rw [h2]
        simp
      · simp only [hm, Bool.false_eq_true, if_false]
        try dsimp only
        refine ⟨g1, ?_⟩
        rw [g2]
        simp

/-- If the loop reports success, every room's append succeeded. -/
theorem leaveLoop_ok_all (env : Env) (u : UserIdM) (rooms : List String) :
    ∀ db : Db, (leaveLoop env u rooms db).1 = .ok () →
    ∀ r ∈ rooms, env.append_error r = none := by
  induction rooms with
  | nil => intro db _ r hrm; cases hrm
  | cons a rest ih =>
      intro db hok r hrm
      unfold leaveLoop acquireRoomMutex buildAndAppendPdu at hok
      cases he : env.append_error a with
      | some e =>
          exfalso
          by_cases hm : db.room_mutexes.contains a = true <;>
            simp [hm, he] at hok
      | none =>
          rcases List.mem_cons.mp hrm with rfl | hr'
          · exact he
          · by_cases hm : db.room_mutexes.contains a = true <;>
              simp only [hm, if_true, Bool.false_eq_true, if_false, he]
                at hok <;>
                try dsimp only at hok
            · exact ih _ hok r hr'
            · exact ih _ hok r hr'

/-- C1: a `deactivate` call whose UIAA password stage is satisfied (and
whose appends all succeed) enumerates exactly the caller's joined rooms
followed by the invited rooms; the effect trace appends, for each such
room, exactly one membership-leave PDU with state key the caller's user
id, strictly between acquiring that room's mutex (created on first use)
and releasing it before the next room; the removal of the caller's
devices and the permanent deactivation mark come only after all rooms,
and the committed PDU log extends by exactly one leave per room. -/
theorem deactivate_success_spec (env : Env) (db : Db)
    (body : DeactivateBody) (a : AuthDataM) (info : UiaaInfoM)
    (hauth : body.auth = some a)
    (htry : env.try_auth body.sender_user body.sender_device a
        passwordUiaaInfo db = .ok (true, info))
    (hok : ∀ r ∈ allRoomsOf db body.sender_user,
      env.append_error r = none) :
    (deactivate_route env db body).1 = .ok () ∧
    (∃ tr0,
      (deactivate_route env db body).2.2 =
        tr0 ++ [.removeDevicesOf body.sender_user,
                .markDeactivated body.sender_user] ∧
      SerializedLeaves body.sender_user db.room_mutexes
        (allRoomsOf db body.sender_user) tr0) ∧
    (deactivate_route env db body).2.1.pdus =
      db.pdus ++ (allRoomsOf db body.sender_user).map
        (fun r => (r, leavePdu body.sender_user, body.sender_user)) ∧
    (deactivate_route env db body).2.1.devices =
      db.devices.filter (fun d => !(d.user == body.sender_user)) ∧
    (deactivate_route env db body).2.1.deactivated =
      body.sender_user :: db.deactivated ∧
    (leavePdu body.sender_user).state_key =
      some body.sender_user.toStr ∧
    (leavePdu body.sender_user).content.membership_leave = true := by
  obtain ⟨h1, h2, h3⟩ := leaveLoop_success env body.sender_user
    (allRoomsOf db body.sender_user) db hok
  obtain ⟨hdev, hdea, -, -⟩ := leaveLoop_preserves env body.sender_user
    (allRoomsOf db body.sender_user) db
  unfold deactivate_route
  rw [hauth]
  dsimp only
  rw [htry]
  dsimp only
  simp only [Bool.not_true, Bool.false_eq_true, if_false]
  rcases hll : leaveLoop env body.sender_user
      (allRoomsOf db body.sender_user) db with ⟨res, db1, tr⟩
  rw [hll] at h1 h2 h3 hdev hdea
  dsimp only at h1 h2 h3 hdev hdea
  subst h1
  dsimp only
  refine ⟨rfl, ⟨tr, rfl, h3⟩, ?_, ?_, ?_, rfl, rfl⟩
  · show db1.pdus = _
    exact h2
  · show db1.devices.filter _ = _
    rw [hdev]
  · show body.sender_user :: db1.deactivated = _
    rw [hdea]

/-- C9: if the append fails for some room in `deactivate`'s
cascading-leave loop (all earlier rooms having succeeded), the error is
surfaced as the call's result, the leaves already committed for the
earlier rooms are kept, and no leave is committed for the failing room
or any later room. -/
theorem deactivate_append_failure_spec (env : Env) (db : Db)
    (body : DeactivateBody) (a : AuthDataM) (info : UiaaInfoM)
    (as : List String) (r : String) (bs : List String) (e : ErrorM)
    (hauth : body.auth = some a)
    (htry : env.try_auth body.sender_user body.sender_device a
        passwordUiaaInfo db = .ok (true, info))
    (hsplit : allRoomsOf db body.sender_user = as ++ r :: bs)
    (has : ∀ x ∈ as, env.append_error x = none)
    (hr : env.append_error r = some e) :
    (deactivate_route env db body).1 = .error e ∧
    (deactivate_route env db body).2.1.pdus =
      db.pdus ++ as.map
        (fun x => (x, leavePdu body.sender_user, body.sender_user)) := by
  obtain ⟨h1, h2⟩ := leaveLoop_failure env body.sender_user as r bs e db
    has hr
  unfold deactivate_route
  rw [hauth]
  dsimp only
  rw [htry]
  dsimp only
  simp only [Bool.not_true, Bool.false_eq_true, if_false]
  rw [← hsplit] at h1 h2
  rcases hll : leaveLoop env body.sender_user
      (allRoomsOf db body.sender_user) db with ⟨res, db1, tr⟩
  rw [hll] at h1 h2
  dsimp only at h1 h2
  subst h1
  dsimp only
  exact ⟨rfl, h2⟩

/-- C10: if the append fails for any room during `deactivate`, the call
reports an error, the caller's devices all remain registered, and the
account is not marked deactivated — device removal and the deactivation
flag come only after every room's leave has been committed. -/
theorem deactivate_failure_preserves_account (env : Env) (db : Db)
    (body : DeactivateBody) (a : AuthDataM) (info : UiaaInfoM) (r : String)
    (hauth : body.auth = some a)
    (htry : env.try_auth body.sender_user body.sender_device a
        passwordUiaaInfo db = .ok (true, info))
    (hrm : r ∈ allRoomsOf db body.sender_user)
    (hfail : env.append_error r ≠ none) :
    (∃ e, (deactivate_route env db body).1 = .error e) ∧
    (deactivate_route env db body).2.1.devices = db.devices ∧
    (deactivate_route env db body).2.1.deactivated = db.deactivated := by
  obtain ⟨hdev, hdea, -, -⟩ := leaveLoop_preserves env body.sender_user
    (allRoomsOf db body.sender_user) db
  have hnok : (leaveLoop env body.sender_user
      (allRoomsOf db body.sender_user) db).1 ≠ .ok () := by
    intro hk
    exact hfail (leaveLoop_ok_all env body.sender_user
      (allRoomsOf db body.sender_user) db hk r hrm)
  unfold deactivate_route
  rw [hauth]
  dsimp only
  rw [htry]
  dsimp only
  simp only [Bool.not_true, Bool.false_eq_true, if_false]
  rcases hll : leaveLoop env body.sender_user
      (allRoomsOf db body.sender_user) db with ⟨res, db1, tr⟩
  rw [hll] at hdev hdea hnok
  dsimp only at hdev hdea hnok
  cases res with
  | ok u0 =>
      exact absurd rfl (by cases u0; exact hnok)
  | error e =>
      dsimp only
      exact ⟨⟨e, rfl⟩, hdev, hdea⟩

/-- Alice is joined to rooms `!r1`, `!r2` and invited to `!r3`. -/
def roomsDb : Db :=
  { emptyDb with
    users := [aliceU]
    passwords := [(aliceU, some "pw")]
    devices := [⟨aliceU, "D1", "t1", none⟩]
    rooms_joined := fun u => if u == aliceU then ["!r1", "!r2"] else []
    rooms_invited := fun u => if u == aliceU then [("!r3", "inv")] else [] }

/-- A `deactivate` request by alice from device `D1`. -/
def deactBody : DeactivateBody :=
  { sender_user := aliceU, sender_device := "D1", auth := some ⟨"pw"⟩,
    json_body := some "j" }

/-- An environment whose event-append collaborator fails on room `!r2`
and succeeds elsewhere. -/
def failEnv : Env :=
  { baseEnv with append_error :=
      fun r => if r == "!r2" then some (.Internal "append failed")
        else none }

/-- Witness for C1: with all appends succeeding, deactivation succeeds
and commits exactly one leave per room of alice. -/
theorem deactivate_success_spec_witness :
    (deactivate_route baseEnv roomsDb deactBody).1 = .ok () ∧
    (deactivate_route baseEnv roomsDb deactBody).2.1.pdus =
      roomsDb.pdus ++ (allRoomsOf roomsDb aliceU).map
        (fun r => (r, leavePdu aliceU, aliceU)) := by
  have h := deactivate_success_spec baseEnv roomsDb deactBody ⟨"pw"⟩
    passwordUiaaInfo rfl rfl (fun r _ => rfl)
  exact ⟨h.1, h.2.2.1⟩

/-- Witness for C9: with the append failing on `!r2`, the call surfaces
the append error and the PDU log holds exactly the leave for `!r1`. -/
theorem deactivate_append_failure_spec_witness :
    (deactivate_route failEnv roomsDb deactBody).1 =
      .error (.Internal "append failed") ∧
    (deactivate_route failEnv roomsDb deactBody).2.1.pdus =
      roomsDb.pdus ++ [("!r1", leavePdu aliceU, aliceU)] := by
  have h := deactivate_append_failure_spec failEnv roomsDb deactBody ⟨"pw"⟩
    passwordUiaaInfo ["!r1"] "!r2" ["!r3"] (.Internal "append failed")
    rfl rfl rfl
    (by intro x hx; simp at hx; subst hx; rfl) rfl
  exact ⟨h.1, h.2⟩

/-- Witness for C10: with the append failing on `!r2`, alice's device
record survives and the account is not marked deactivated. -/
theorem deactivate_failure_preserves_account_witness :
    (deactivate_route failEnv roomsDb deactBody).2.1.devices =
      roomsDb.devices ∧
    (deactivate_route failEnv roomsDb deactBody).2.1.deactivated =
      roomsDb.deactivated := by
  have h := deactivate_failure_preserves_account failEnv roomsDb deactBody
    ⟨"pw"⟩ passwordUiaaInfo "!r2" rfl rfl (by decide) (by decide)
  exact ⟨h.2.1, h.2.2⟩
